import Mathlib

/-!
Verification development for the QuantF1 analytics pipeline.

The definitions below are a shallow embedding of the Python sources:
* `src/5_Drawdown_and_Recovery/execution_equity.py` (equity accumulator,
  dynamic traffic-threshold calibration),
* `src/5_Drawdown_and_Recovery/drawdown_metrics.py` (drawdown detector and
  per-category resilience summary),
* `src/5_Drawdown_and_Recovery/resilience_profiler.py` (archetype classifier),
* `src/2_Sortino_Ratio/driver_sortino_ratio.py` and
  `src/1_Sharpe_Ratio/driver_sharpe_ratio.py` (risk-adjusted ratio engine).

Machine floats are modelled as exact rationals; a float `NaN` is modelled as
`Option.none` (pandas assigns `NaN` to missing data, comparisons with `NaN`
are false, and pandas reductions skip `NaN` by default).
-/

namespace QuantF1

/-- One per-(competitor, lap) record as seen by the equity pipeline of
`execution_equity.py`: the `IsPit` and `IsSC` flags (step 1 of
`calculate_execution_equity`), the gap to the car ahead (`IntervalToAhead`,
step 2) and the benchmark residual `RawDelta` (step 4; `none` models a
`NaN`, i.e. a lap with no usable benchmark prediction or no lap time). -/
structure Lap where
  isPit : Bool
  isSC : Bool
  gap : ℚ
  rawDelta : Option ℚ
deriving DecidableEq, Repr

/-- Config constant `SC_EQUITY_FREEZE` from `config.py` (line 120):
documented as "Whether to freeze equity during Safety Car periods". -/
def SC_EQUITY_FREEZE : Bool := true

/-- Config constant `DRAWDOWN_ENTRY_THRESHOLD` from `config.py` (line 137). -/
def DRAWDOWN_ENTRY_THRESHOLD : ℚ := -1/10

/-- Config constant `RECOVERY_COMPLETE_THRESHOLD` from `config.py` (line 155). -/
def RECOVERY_COMPLETE_THRESHOLD : ℚ := -1/20

/-- Config constant `MIN_RECOVERY_DURATION` from `config.py` (line 167). -/
def MIN_RECOVERY_DURATION : ℚ := 1

/-- The inner function `calculate_equity_change` of
`calculate_execution_equity` (execution_equity.py lines 150-158):

    if row['IsSC']: return 0.0
    base_equity = 0.0
    if row['IsPit']:
        loss = row['RawDelta'] - avg_pit_loss
        base_equity = -loss
    elif not pd.isna(row['RawDelta']):
        base_equity = -row['RawDelta']
    return base_equity

`avgPitLoss` is the enclosing `avg_pit_loss`.  Note that the pit branch has
no `isna` guard: a `NaN` raw delta on a pit lap propagates (`NaN - x = NaN`),
modelled by `Option.map`.  On a non-pit lap with `NaN` delta the initial
`base_equity = 0.0` survives. -/
def calculate_equity_change (avgPitLoss : ℚ) (l : Lap) : Option ℚ :=
  if l.isSC then some 0
  else if l.isPit then l.rawDelta.map (fun d => -(d - avgPitLoss))
  else
    match l.rawDelta with
    | some d => some (-d)
    | none => some 0

/-- Modelled from the spec: the spec (section 4.3) describes the caution
freeze as "a deliberate fairness policy, configurable on/off" via the
`SC_EQUITY_FREEZE` option; no code under `src/` actually consults the flag,
so the configurable behaviour is modelled here from the spec's words for
comparison with `calculate_equity_change`: with the freeze enabled a caution
lap's change is 0, with it disabled the lap falls through to the ordinary
pit / non-pit rules. -/
def equity_change_with_freeze (freeze : Bool) (avgPitLoss : ℚ) (l : Lap) :
    Option ℚ :=
  if l.isSC && freeze then some 0
  else if l.isPit then l.rawDelta.map (fun d => -(d - avgPitLoss))
  else
    match l.rawDelta with
    | some d => some (-d)
    | none => some 0

/-- Helper for `pandasCumsum`: running total over the values seen so far.
A `none` input (a `NaN`) leaves a `none` in the output but is excluded from
the running total, exactly pandas' default `skipna=True` behaviour of
`Series.cumsum`. -/
def pandasCumsumFrom (acc : ℚ) : List (Option ℚ) → List (Option ℚ)
  | [] => []
  | none :: xs => none :: pandasCumsumFrom acc xs
  | some x :: xs => some (acc + x) :: pandasCumsumFrom (acc + x) xs

/-- pandas `Series.cumsum()` with its default `skipna=True`, as used in
`d_laps['ExecutionEquity'] = d_laps['EquityChange'].cumsum()`
(execution_equity.py line 181). -/
def pandasCumsum : List (Option ℚ) → List (Option ℚ) :=
  pandasCumsumFrom 0

/-- One competitor's cumulative `ExecutionEquity` series
(execution_equity.py lines 178-181): the competitor's laps, already in
lap-number order, are mapped through `calculate_equity_change` and
accumulated with pandas `cumsum`. -/
def executionEquity (avgPitLoss : ℚ) (laps : List Lap) : List (Option ℚ) :=
  pandasCumsum (laps.map (calculate_equity_change avgPitLoss))

/-- The valid gap sample of `estimate_traffic_threshold_dynamically`
(execution_equity.py lines 37-39): gaps of all non-pit, non-caution laps
whose `IntervalToAhead` lies strictly between 0.1s and 9.0s. -/
def validGaps (laps : List Lap) : List ℚ :=
  (laps.filter fun l =>
    !l.isPit && !l.isSC && decide ((1/10 : ℚ) < l.gap) && decide (l.gap < 9)).map
    (fun l => l.gap)

/-- Ascending insertion of one element, used by `sortAsc`. -/
def insertAsc (x : ℚ) : List ℚ → List ℚ
  | [] => [x]
  | y :: ys => if x ≤ y then x :: y :: ys else y :: insertAsc x ys

/-- Ascending sort (insertion sort), modelling the sort that
`np.percentile` / `pandas.quantile` perform internally. -/
def sortAsc (l : List ℚ) : List ℚ := l.foldr insertAsc []

/-- Linear interpolation into a (sorted) list at fractional position `pos`,
the interpolation scheme of `np.percentile` and `pandas.quantile` (their
shared default, `interpolation='linear'`). -/
def interpolateAt (s : List ℚ) (pos : ℚ) : ℚ :=
  let k : ℕ := ⌊pos⌋.toNat
  let lo := s.getD k 0
  let hi := s.getD (k + 1) lo
  lo + (pos - (k : ℚ)) * (hi - lo)

/-- `np.percentile(xs, q)` (linear interpolation at position
`q/100 * (n-1)` of the sorted sample), as called with `q = 50` in
`estimate_traffic_threshold_dynamically` (execution_equity.py line 49). -/
def np_percentile (q : ℚ) (xs : List ℚ) : ℚ :=
  interpolateAt (sortAsc xs) (q * ((xs.length : ℚ) - 1) / 100)

/-- `pandas.Series.quantile(q)` (linear interpolation at position
`q * (n-1)`), used by `resilience_profiler.py` for the 0.7 / 0.5 / 0.1
cohort quantiles. -/
def pd_quantile (q : ℚ) (xs : List ℚ) : ℚ :=
  interpolateAt (sortAsc xs) (q * ((xs.length : ℚ) - 1))

/-- The 50th percentile as the spec words it: the median of the sample —
middle element of the sorted list for odd sample size, average of the two
middle elements for even size. -/
def median_spec (xs : List ℚ) : ℚ :=
  let s := sortAsc xs
  let n := s.length
  if n % 2 = 1 then s.getD (n / 2) 0
  else (s.getD (n / 2 - 1) 0 + s.getD (n / 2) 0) / 2

/-- `estimate_traffic_threshold_dynamically` (execution_equity.py lines
26-54): with fewer than 50 valid gap samples return the fixed default 1.3s,
otherwise the 50th percentile of the valid gaps clipped (`np.clip`) into
[0.8, 3.0]. -/
def estimate_traffic_threshold_dynamically (laps : List Lap) : ℚ :=
  let valid_gaps := validGaps laps
  if valid_gaps.length < 50 then 13/10
  else min 3 (max (4/5) (np_percentile 50 valid_gaps))

/-- One row of the equity table consumed by `calculate_drawdown_metrics`
(drawdown_metrics.py): lap number, cumulative `ExecutionEquity` and the
`FailureType` attributed upstream. -/
structure EquityRow where
  lapNumber : ℚ
  equity : ℚ
  failureType : String
deriving DecidableEq, Repr

/-- Helper for `cummax`: running maximum with accumulator `m`. -/
def cummaxFrom (m : ℚ) : List ℚ → List ℚ
  | [] => []
  | x :: xs => max m x :: cummaxFrom (max m x) xs

/-- pandas `Series.cummax()`, as used for
`d_df['Peak'] = d_df['ExecutionEquity'].cummax()`
(drawdown_metrics.py line 33). -/
def cummax : List ℚ → List ℚ
  | [] => []
  | x :: xs => x :: cummaxFrom x xs

/-- The per-lap `Drawdown` column
`d_df['Drawdown'] = d_df['ExecutionEquity'] - d_df['Peak']`
(drawdown_metrics.py line 34). -/
def drawdowns (eqs : List ℚ) : List ℚ :=
  (eqs.zip (cummax eqs)).map (fun p => p.1 - p.2)

/-- pandas `Series.min()` over a column, used for
`mdd = d_df['Drawdown'].min()` (drawdown_metrics.py line 35); `none` for an
empty column. -/
def listMin : List ℚ → Option ℚ
  | [] => none
  | x :: xs => some (xs.foldl min x)

/-- `Max Drawdown (s)` of one competitor: the minimum of the per-lap
drawdown values. -/
def maxDrawdown (eqs : List ℚ) : Option ℚ :=
  listMin (drawdowns eqs)

/-- The mutable state of the episode scan of `calculate_drawdown_metrics`
(drawdown_metrics.py lines 38-57): the `in_dd` flag, the recorded trough,
the failure type recorded at episode entry, and the two lists accumulated
when an episode is finalized. (The `recovery_curvatures` list, which feeds
only the curvature columns, is not needed by any claim and is omitted.) -/
structure ScanState where
  in_dd : Bool
  trough_lap : ℚ
  trough_equity : ℚ
  current_failure_type : String
  recovery_velocities : List ℚ
  recovery_types : List String
deriving DecidableEq, Repr

/-- Initial scan state (drawdown_metrics.py lines 42-45). -/
def initScanState : ScanState :=
  { in_dd := false, trough_lap := 0, trough_equity := 0,
    current_failure_type := "None",
    recovery_velocities := [], recovery_types := [] }

/-- One iteration of the episode loop of `calculate_drawdown_metrics`
(drawdown_metrics.py lines 47-70) on a row with lap number `lap`,
cumulative equity `equity`, drawdown value `dd` and failure type `ftype`:

    if row['Drawdown'] < DRAWDOWN_ENTRY_THRESHOLD:
        if not in_dd:
            in_dd = True; trough_lap = ...; trough_equity = ...; current_failure_type = ...
        if row['ExecutionEquity'] < trough_equity:
            trough_equity = ...; trough_lap = ...
    elif in_dd and row['Drawdown'] >= RECOVERY_COMPLETE_THRESHOLD:
        in_dd = False
        duration = end_lap - trough_lap
        if duration > MIN_RECOVERY_DURATION:
            recovery_velocities.append(abs(... - trough_equity) / duration)
            recovery_types.append(current_failure_type)
-/
def scanStep (s : ScanState) (lap equity dd : ℚ) (ftype : String) : ScanState :=
  if dd < DRAWDOWN_ENTRY_THRESHOLD then
    let s1 :=
      if s.in_dd then s
      else { s with in_dd := true, trough_lap := lap, trough_equity := equity,
                    current_failure_type := ftype }
    if equity < s1.trough_equity then
      { s1 with trough_equity := equity, trough_lap := lap }
    else s1
  else if s.in_dd ∧ RECOVERY_COMPLETE_THRESHOLD ≤ dd then
    let duration := lap - s.trough_lap
    if MIN_RECOVERY_DURATION < duration then
      { s with in_dd := false,
               recovery_velocities :=
                 s.recovery_velocities ++ [|equity - s.trough_equity| / duration],
               recovery_types := s.recovery_types ++ [s.current_failure_type] }
    else { s with in_dd := false }
  else s

/-- The full episode scan of one competitor: compute the per-lap drawdown
values and fold `scanStep` over the rows in order
(drawdown_metrics.py lines 30-70). -/
def detectEpisodes (rows : List EquityRow) : ScanState :=
  let dds := drawdowns (rows.map (fun r => r.equity))
  (rows.zip dds).foldl
    (fun s p => scanStep s p.1.lapNumber p.1.equity p.2 p.1.failureType)
    initScanState

/-- `np.mean` of a list of rationals (callers guard against empty lists). -/
def meanQ (xs : List ℚ) : ℚ := xs.sum / (xs.length : ℚ)

/-- The recovery velocities of the finalized episodes of one failure
category: `[v for v, t in zip(recovery_velocities, recovery_types) if t == r_type]`
(drawdown_metrics.py line 101). -/
def ratesOfType (r_type : String) (s : ScanState) : List ℚ :=
  ((s.recovery_velocities.zip s.recovery_types).filter
    (fun p => p.2 = r_type)).map (fun p => p.1)

/-- The generic per-category resilience entry of
`calculate_drawdown_metrics` (drawdown_metrics.py lines 100-107): `NaN`
(`none`) when the competitor had no finalized episode of the category,
otherwise the mean recovery velocity over those episodes. -/
def typeRecoveryGeneric (r_type : String) (s : ScanState) : Option ℚ :=
  let relevant_rates := ratesOfType r_type s
  if relevant_rates.isEmpty then none
  else some (meanQ relevant_rates)

/-- `Major Incident Resilience` as exported in the summary row
(drawdown_metrics.py line 141). -/
def majorIncidentResilience (s : ScanState) : Option ℚ :=
  typeRecoveryGeneric "Major Incident" s

/-- `Operational Resilience` as exported in the summary row
(drawdown_metrics.py line 144). -/
def operationalResilience (s : ScanState) : Option ℚ :=
  typeRecoveryGeneric "Operational" s

/-- `Traffic Resilience` as exported in the summary row: lines 109-116 of
drawdown_metrics.py overwrite the generic entry — if the competitor had no
traffic episodes the value falls back to the mean over *all* recovery
velocities, and is `NaN` only when there are no episodes at all:

    traffic_rates = [v for v, t in zip(...) if t == 'Traffic']
    if traffic_rates:
        type_recovery['Traffic Resilience'] = np.mean(traffic_rates)
    else:
        type_recovery['Traffic Resilience'] = np.mean(recovery_velocities) if recovery_velocities else np.nan
-/
def trafficResilience (s : ScanState) : Option ℚ :=
  let traffic_rates := ratesOfType "Traffic" s
  if traffic_rates.isEmpty then
    if s.recovery_velocities.isEmpty then none
    else some (meanQ s.recovery_velocities)
  else some (meanQ traffic_rates)

/-- Sample variance (`ddof=1`, pandas' default for `Series.std`) of a list
of deltas; meaningful only for samples of size at least 2, which is how the
embedding uses it. -/
def sampleVarQ (xs : List ℚ) : ℚ :=
  ((xs.map (fun x => (x - meanQ xs) ^ 2)).sum) / ((xs.length : ℚ) - 1)

/-- The per-stint Sortino computation of `calculate_driver_sortino_ratio`
(driver_sortino_ratio.py lines 126-138), given the stint's `LapTimeDelta`
samples:

    mean_delta = stint_laps['LapTimeDelta'].mean()
    downside_deltas = stint_laps['LapTimeDelta'][stint_laps['LapTimeDelta'] > mean_delta]
    downside_std_dev = 0
    if not downside_deltas.empty:
        downside_std_dev = downside_deltas.std()
        if downside_std_dev > 1e-6:
            sortino_ratio = -mean_delta / downside_std_dev
        else:
            sortino_ratio = 0
    else:
        sortino_ratio = 0

pandas `std` uses `ddof=1`, so a one-element downside sample yields `NaN`
and the comparison `NaN > 1e-6` is false, giving ratio 0.  The float
comparison `downside_std_dev > 1e-6` is encoded on the (nonnegative)
variance as `variance > (1e-6)^2`, which is equivalent since the square
root is strictly monotone. -/
noncomputable def sortinoStint (deltas : List ℚ) : ℝ :=
  let mean_delta := meanQ deltas
  let downside_deltas := deltas.filter (fun d => mean_delta < d)
  if downside_deltas.isEmpty then 0
  else if downside_deltas.length = 1 then 0
  else if (1/1000000 : ℚ) ^ 2 < sampleVarQ downside_deltas then
    -(mean_delta : ℝ) / Real.sqrt ((sampleVarQ downside_deltas : ℚ) : ℝ)
  else 0

/-- The downside standard deviation as the spec words it: the standard
deviation of the downside subset, absent (`NaN`) when the sample is too
small for the `ddof=1` estimator. -/
noncomputable def sampleStdOpt (xs : List ℚ) : Option ℝ :=
  if xs.length ≤ 1 then none
  else some (Real.sqrt ((sampleVarQ xs : ℚ) : ℝ))

/-- The Sortino-like ratio as the spec words it (spec section 4.4): split
the deltas into the downside subset (deltas strictly greater than the
segment's own mean); if that subset is empty the ratio is 0; if its
standard deviation is not greater than 1e-6 the ratio is 0; otherwise the
ratio is the negated mean divided by the downside standard deviation. -/
noncomputable def sortinoSpec (deltas : List ℚ) : ℝ :=
  let m := meanQ deltas
  let downside := deltas.filter (fun d => m < d)
  match sampleStdOpt downside with
  | none => 0
  | some s => if (1/1000000 : ℝ) < s then -(m : ℝ) / s else 0

/-- One per-lap record of the ratio engine after
`laps.dropna(subset=['LapTimeDelta'])` (driver_sortino_ratio.py line 107):
driver number, stint id and the (defined) benchmark delta. -/
structure LapR where
  driver : ℕ
  stint : ℕ
  delta : ℚ
deriving DecidableEq, Repr

/-- First-occurrence deduplication, modelling pandas `Series.unique()`
(order of first appearance), used for `driver_laps['Stint'].unique()`. -/
def uniqueFirst (l : List ℕ) : List ℕ :=
  l.foldl (fun acc x => if x ∈ acc then acc else acc ++ [x]) []

/-- One output row of `calculate_driver_sortino_ratio` (the fields of the
`driver_analysis.append` dict that the claims need; the team/position
lookups are presentation only). -/
structure SortinoRow where
  driver : ℕ
  meanDelta : ℚ
  sortinoValue : ℝ
  lapsCount : ℕ

/-- Weighted average `np.average(xs, weights=ws)` with rational values. -/
def weightedAvgQ (xs : List ℚ) (ws : List ℕ) : ℚ :=
  ((xs.zip ws).map (fun p => p.1 * (p.2 : ℚ))).sum / ((ws.map (fun w => (w : ℚ))).sum)

/-- Weighted average `np.average(xs, weights=ws)` with real values. -/
noncomputable def weightedAvgR (xs : List ℝ) (ws : List ℕ) : ℝ :=
  ((xs.zip ws).map (fun p => p.1 * (p.2 : ℝ))).sum / ((ws.map (fun w => (w : ℝ))).sum)

/-- The per-driver loop of `calculate_driver_sortino_ratio`
(driver_sortino_ratio.py lines 109-166): for each driver number, collect
their laps; skip the driver if they have none; for each distinct stint with
at least 3 laps compute the stint's Sortino ratio, lap count and mean
delta; if no stint qualifies ("if not stint_sortino_ratios: continue") the
driver is skipped entirely, otherwise emit one row with lap-count-weighted
aggregates.  (`calculate_driver_sharpe_ratio` lines 114-183 has the same
skip structure.) -/
noncomputable def sortinoRows (drivers : List ℕ) (laps : List LapR) :
    List SortinoRow :=
  drivers.filterMap (fun d =>
    let driver_laps := laps.filter (fun l => l.driver = d)
    if driver_laps.isEmpty then none
    else
      let stint_stats :=
        (uniqueFirst (driver_laps.map (fun l => l.stint))).filterMap (fun st =>
          let stint_laps := driver_laps.filter (fun l => l.stint = st)
          if stint_laps.length < 3 then none
          else
            let ds := stint_laps.map (fun l => l.delta)
            some (sortinoStint ds, stint_laps.length, meanQ ds))
      match stint_stats with
      | [] => none
      | _ =>
        some { driver := d,
               meanDelta := weightedAvgQ (stint_stats.map (fun t => t.2.2))
                              (stint_stats.map (fun t => t.2.1)),
               sortinoValue := weightedAvgR (stint_stats.map (fun t => t.1))
                                 (stint_stats.map (fun t => t.2.1)),
               lapsCount := (stint_stats.map (fun t => t.2.1)).sum })

/-- One row of the aggregated metrics table consumed by
`ResilienceProfiler.profile_drivers` (resilience_profiler.py): the three
columns its decision tree reads. -/
structure DriverRow where
  mdd : ℚ
  rv : ℚ
  restartDelta : ℚ
deriving DecidableEq, Repr

/-- Config constant `MDD_BUFFER_SECONDS` from `config.py` (line 272). -/
def MDD_BUFFER_SECONDS : ℚ := 2

/-- The `assign_archetype` decision tree of
`ResilienceProfiler.profile_drivers` (resilience_profiler.py lines 74-105),
with the cohort quantiles passed in as computed at lines 61-65 and the
inline 0.1 quantile of rule 5 (line 99). -/
def assign_archetype (mdd_q70 rv_q70 mdd_median rv_median mdd_q10 : ℚ)
    (r : DriverRow) : String :=
  if mdd_q70 ≤ r.mdd ∧ rv_q70 ≤ r.rv ∧ 0 ≤ r.restartDelta then "Entropy King"
  else if mdd_median - MDD_BUFFER_SECONDS ≤ r.mdd then "Steady Operator"
  else if rv_median + 5/100 ≤ r.rv then "Elastic Aggressor"
  else if r.mdd < mdd_median - MDD_BUFFER_SECONDS ∧ r.rv < rv_median then
    "Brittle Performer"
  else if r.mdd ≤ mdd_q10 then "Outlier / Critical Fail"
  else "Volatile Performer"

/-- First index of the maximum, helper for `idxmax`. -/
def idxmaxAux : List ℚ → ℕ → ℕ → ℚ → ℕ
  | [], _, bi, _ => bi
  | x :: xs, i, bi, bv =>
    if bv < x then idxmaxAux xs (i + 1) i x else idxmaxAux xs (i + 1) bi bv

/-- pandas `Series.idxmax()` over a (positionally indexed) column: the
first index attaining the maximum, as used for
`best_idx = aggregated_metrics_df['Restart Delta (s)'].idxmax()`
(resilience_profiler.py line 114). -/
def idxmax : List ℚ → ℕ
  | [] => 0
  | x :: xs => idxmaxAux xs 1 0 x

/-- `df.loc[best_idx, 'Resilience Profile'] = "Entropy King"`
(resilience_profiler.py line 116): overwrite the label at one index. -/
def setLabelEK : List (DriverRow × String) → ℕ → List (DriverRow × String)
  | [], _ => []
  | p :: ps, 0 => (p.1, "Entropy King") :: ps
  | p :: ps, n + 1 => p :: setLabelEK ps n

/-- `ResilienceProfiler.profile_drivers` (resilience_profiler.py lines
23-119) restricted to its labeling logic: compute the cohort percentile
thresholds, apply `assign_archetype` to every row, then the post-hoc
correction of lines 113-119 — if no row received "Entropy King", relabel
the row with the highest restart delta.  (The k-means cluster column and
the confidence-score column do not influence the labels and are omitted,
as is the CSV export.) -/
def profile_drivers (cohort : List DriverRow) : List (DriverRow × String) :=
  let mdds := cohort.map (fun r => r.mdd)
  let rvs := cohort.map (fun r => r.rv)
  let mdd_q70 := pd_quantile (7/10) mdds
  let rv_q70 := pd_quantile (7/10) rvs
  let mdd_median := pd_quantile (1/2) mdds
  let rv_median := pd_quantile (1/2) rvs
  let mdd_q10 := pd_quantile (1/10) mdds
  let labeled := cohort.map (fun r =>
    (r, assign_archetype mdd_q70 rv_q70 mdd_median rv_median mdd_q10 r))
  if labeled.any (fun p => p.2 = "Entropy King") then labeled
  else setLabelEK labeled (idxmax (cohort.map (fun r => r.restartDelta)))

/-- Concrete ratio-engine input: driver 1 has only one stint with 2 laps
(below the 3-lap minimum everywhere), driver 2 has one stint with 3 laps. -/
def exampleLapsThin : List LapR :=
  [⟨1, 1, 0⟩, ⟨1, 1, 1⟩, ⟨2, 1, 0⟩, ⟨2, 1, 1⟩, ⟨2, 1, 2⟩]

/-- Running partial sums starting from `a`: the value of
`pandasCumsumFrom a` on a `NaN`-free column (proof helper). -/
def runningSums (a : ℚ) : List ℚ → List ℚ
  | [] => []
  | c :: cs => (a + c) :: runningSums (a + c) cs

/-- Concrete equity table with exactly one finalized episode, of category
"Major Incident" (entry and trough at lap 2, recovery complete at lap 4,
velocity 3/2), and no Traffic episode. -/
def exampleRowsMajor : List EquityRow :=
  [⟨1, 0, "None"⟩, ⟨2, -3, "Major Incident"⟩, ⟨3, -3, "None"⟩, ⟨4, 0, "None"⟩]

/-- Concrete equity table with exactly one finalized episode, of category
"Traffic" (velocity 3/2). -/
def exampleRowsTraffic : List EquityRow :=
  [⟨1, 0, "None"⟩, ⟨2, -3, "Traffic"⟩, ⟨3, -3, "None"⟩, ⟨4, 0, "None"⟩]

/-! ### Helper lemmas -/

theorem fst_le_snd_of_mem_zip_cummaxFrom (l : List ℚ) :
    ∀ (m : ℚ), ∀ p ∈ l.zip (cummaxFrom m l), p.1 ≤ p.2 := by
  induction l with
  | nil => intro m p hp; simp at hp
  | cons x xs ih =>
    intro m p hp
    rw [cummaxFrom] at hp
    simp only [List.zip_cons_cons, List.mem_cons] at hp
    rcases hp with hp | hp
    · rw [hp]; exact le_max_right m x
    · exact ih (max m x) p hp

theorem fst_le_snd_of_mem_zip_cummax (eqs : List ℚ) :
    ∀ p ∈ eqs.zip (cummax eqs), p.1 ≤ p.2 := by
  cases eqs with
  | nil => intro p hp; simp at hp
  | cons x xs =>
    intro p hp
    rw [cummax] at hp
    simp only [List.zip_cons_cons, List.mem_cons] at hp
    rcases hp with hp | hp
    · rw [hp]
    · exact fst_le_snd_of_mem_zip_cummaxFrom xs x p hp

theorem foldl_min_mem (xs : List ℚ) : ∀ (x : ℚ), xs.foldl min x ∈ x :: xs := by
  induction xs with
  | nil => intro x; simp
  | cons y ys ih =>
    intro x
    have h := ih (min x y)
    rcases List.mem_cons.mp h with h | h
    · rcases min_choice x y with hc | hc <;> rw [List.foldl_cons, h, hc] <;> simp
    · simp [List.foldl_cons, List.mem_cons.mpr (Or.inr (List.mem_cons.mpr (Or.inr h)))]

theorem listMin_mem {l : List ℚ} {m : ℚ} (h : listMin l = some m) : m ∈ l := by
  cases l with
  | nil => simp [listMin] at h
  | cons x xs =>
    rw [listMin, Option.some_inj] at h
    rw [← h]
    exact foldl_min_mem xs x

/-! ### Claim C5 -/

/-- C5: for every competitor and every lap, the drawdown value computed by
the detector (cumulative equity minus the running cumulative maximum of
equity up to and including that lap) is at most 0; consequently the
per-competitor max drawdown (the minimum drawdown value over the race) is
also at most 0. -/
theorem drawdown_nonpositive (eqs : List ℚ) :
    (∀ d ∈ drawdowns eqs, d ≤ 0) ∧
    (∀ m, maxDrawdown eqs = some m → m ≤ 0) := by
  have hall : ∀ d ∈ drawdowns eqs, d ≤ 0 := by
    intro d hd
    rw [drawdowns, List.mem_map] at hd
    obtain ⟨p, hp, rfl⟩ := hd
    have := fst_le_snd_of_mem_zip_cummax eqs p hp
    linarith
  refine ⟨hall, ?_⟩
  intro m hm
  exact hall m (listMin_mem hm)

/-- Witness for C5 at a concrete equity series. -/
theorem drawdown_nonpositive_witness :
    maxDrawdown [0, -3, 1] = some (-3) ∧ (-3 : ℚ) ≤ 0 := by
  have heval : maxDrawdown [0, -3, 1] = some (-3) := by
    norm_num [maxDrawdown, drawdowns, cummax, cummaxFrom, listMin]
  exact ⟨heval, (drawdown_nonpositive [0, -3, 1]).2 (-3) heval⟩

/-! ### Claim C4 -/

/-- C4: in the single-pass drawdown detector, once the scan state is
In-Drawdown it never transitions back to Normal at a lap whose drawdown
value is strictly below the exit threshold `RECOVERY_COMPLETE_THRESHOLD`
(default -0.05s), even if the drawdown value lies at or above the entry
threshold (default -0.1s): while the drawdown stays below the exit
threshold the state remains In-Drawdown. -/
theorem drawdown_hysteresis_no_early_exit (s : ScanState)
    (lap equity dd : ℚ) (ftype : String) (hin : s.in_dd = true)
    (hdd : dd < RECOVERY_COMPLETE_THRESHOLD) :
    (scanStep s lap equity dd ftype).in_dd = true := by
  rw [scanStep]
  split
  · simp [hin, apply_ite ScanState.in_dd]
  · split
    · rename_i hcond
      exact absurd hcond.2 (not_le.mpr hdd)
    · exact hin

/-- Witness for C4: a state already In-Drawdown stays In-Drawdown on a lap
whose drawdown value -0.07 lies strictly between the entry threshold -0.1
and the exit threshold -0.05. -/
theorem drawdown_hysteresis_no_early_exit_witness :
    (scanStep
      { in_dd := true, trough_lap := 2, trough_equity := -3,
        current_failure_type := "Major Incident",
        recovery_velocities := [], recovery_types := [] }
      3 (-2) (-7/100) "None").in_dd = true :=
  drawdown_hysteresis_no_early_exit _ 3 (-2) (-7/100) "None" rfl
    (by norm_num [RECOVERY_COMPLETE_THRESHOLD])

/-! ### Claim C3 -/

/-- C3: the claim says equity change is exactly 0 on caution laps when the
caution-freeze policy is enabled AND that this freezing is configurable
on/off.  The freeze-when-enabled half is true (`SC_EQUITY_FREEZE` is
`true` and caution laps always get change 0), but the configurability half
is a code bug: `calculate_equity_change` never consults
`SC_EQUITY_FREEZE` (the flag is imported by execution_equity.py but unused,
contradicting its own config docstring "Whether to freeze equity during
Safety Car periods").  On the caution lap below with raw delta -5, the
spec-modelled freeze-off behaviour yields +5 while the code yields 0 no
matter how the flag is set. -/
theorem sc_freeze_not_configurable :
    SC_EQUITY_FREEZE = true ∧
    calculate_equity_change 20 ⟨false, true, 0, some (-5)⟩ = some 0 ∧
    equity_change_with_freeze true 20 ⟨false, true, 0, some (-5)⟩ = some 0 ∧
    equity_change_with_freeze false 20 ⟨false, true, 0, some (-5)⟩ = some 5 ∧
    equity_change_with_freeze false 20 ⟨false, true, 0, some (-5)⟩ ≠
      calculate_equity_change 20 ⟨false, true, 0, some (-5)⟩ := by
  refine ⟨rfl, ?_, ?_, ?_, ?_⟩ <;>
    norm_num [calculate_equity_change, equity_change_with_freeze, SC_EQUITY_FREEZE]

/-! ### Cumsum lemmas -/

theorem pandasCumsumFrom_length (cs : List (Option ℚ)) :
    ∀ a, (pandasCumsumFrom a cs).length = cs.length := by
  induction cs with
  | nil => intro a; rfl
  | cons x xs ih =>
    intro a
    cases x <;> simp [pandasCumsumFrom, ih]

theorem pandasCumsumFrom_join_isSome (cs : List (Option ℚ)) :
    ∀ (a : ℚ) (i : ℕ), (((pandasCumsumFrom a cs)[i]?).join).isSome
      = (((cs[i]?)).join).isSome := by
  induction cs with
  | nil => intro a i; simp [pandasCumsumFrom]
  | cons x xs ih =>
    intro a i
    cases x with
    | none =>
      cases i with
      | zero => simp [pandasCumsumFrom]
      | succ j => simpa [pandasCumsumFrom, Option.join] using ih a j
    | some v =>
      cases i with
      | zero => simp [pandasCumsumFrom]
      | succ j => simpa [pandasCumsumFrom, Option.join] using ih (a + v) j

theorem pandasCumsumFrom_map_some (cs : List ℚ) :
    ∀ a, pandasCumsumFrom a (cs.map some) = (runningSums a cs).map some := by
  induction cs with
  | nil => intro a; rfl
  | cons c cs ih => intro a; simp [pandasCumsumFrom, runningSums, ih]

theorem runningSums_recurrence (cs : List ℚ) :
    ∀ a i, i + 1 < cs.length →
      ∃ v c, (runningSums a cs)[i]? = some v ∧ cs[i + 1]? = some c ∧
        (runningSums a cs)[i + 1]? = some (v + c) := by
  induction cs with
  | nil => intro a i h; simp at h
  | cons c0 cs ih =>
    intro a i h
    cases i with
    | zero =>
      cases cs with
      | nil => simp at h
      | cons c1 cs' =>
        exact ⟨a + c0, c1, by simp [runningSums], by simp,
          by simp [runningSums]⟩
    | succ j =>
      have h' : j + 1 < cs.length := by simpa using h
      obtain ⟨v, c, h1, h2, h3⟩ := ih (a + c0) j h'
      refine ⟨v, c, ?_, ?_, ?_⟩
      · simpa [runningSums] using h1
      · simpa using h2
      · simpa [runningSums] using h3

theorem runningSums_getLast (cs : List ℚ) :
    ∀ a, cs ≠ [] → (runningSums a cs).getLast? = some (a + cs.sum) := by
  induction cs with
  | nil => intro a h; exact absurd rfl h
  | cons c cs ih =>
    intro a _
    cases cs with
    | nil => simp [runningSums]
    | cons c1 cs' =>
      have htail := ih (a + c) (by simp)
      rw [runningSums, runningSums, List.getLast?_cons_cons, ← runningSums, htail]
      simp [add_assoc]

theorem map_getD_some (apl : ℚ) (laps : List Lap)
    (h : ∀ l ∈ laps, (calculate_equity_change apl l).isSome = true) :
    laps.map (calculate_equity_change apl) =
      (laps.map (fun l => (calculate_equity_change apl l).getD 0)).map some := by
  induction laps with
  | nil => rfl
  | cons l ls ih =>
    have h1 := h l (by simp)
    obtain ⟨v, hv⟩ := Option.isSome_iff_exists.mp h1
    simp only [List.map_cons, hv, Option.getD_some]
    exact congrArg _ (ih (fun x hx => h x (by simp [hx])))

theorem executionEquity_head (apl : ℚ) (laps : List Lap) :
    (executionEquity apl laps)[0]? =
      (laps[0]?).map (calculate_equity_change apl) := by
  rcases laps with _ | ⟨l, ls⟩
  · rfl
  · rw [executionEquity, pandasCumsum]
    simp only [List.map_cons]
    cases h : calculate_equity_change apl l with
    | none => simp [pandasCumsumFrom, h]
    | some v => simp [pandasCumsumFrom, h]

/-! ### Claim C8 -/

/-- C8 counterexample: on a non-caution pit lap whose benchmark delta is
absent (`NaN`), the equity change computed by `calculate_equity_change` is
itself `NaN` (`none`) — not a well-defined number as the claim states —
because the pit branch subtracts the average pit loss from the delta with
no missing-value guard; the lap's own cumulative equity entry is `NaN` as
well. -/
theorem pit_lap_missing_delta_counterexample :
    calculate_equity_change 20 ⟨true, false, 0, none⟩ = none ∧
    executionEquity 20 [⟨true, false, 0, none⟩] = [none] := by
  constructor
  · simp [calculate_equity_change]
  · simp [executionEquity, pandasCumsum, pandasCumsumFrom, calculate_equity_change]

/-- C8 as amended: the equity change is absent (`NaN`) exactly on
non-caution pit laps with an absent delta (so caution laps and non-pit
laps always have a well-defined change, the latter treating an absent
delta as zero change), and the accumulation does not let an absent change
contaminate other laps: the cumulative equity at position `i` is defined
exactly when that lap's own equity change is defined, because pandas
`cumsum` skips `NaN` values. -/
theorem equity_change_definedness (apl : ℚ) (l : Lap) (laps : List Lap)
    (i : ℕ) :
    (calculate_equity_change apl l = none ↔
      l.isSC = false ∧ l.isPit = true ∧ l.rawDelta = none) ∧
    (executionEquity apl laps).length = laps.length ∧
    (((executionEquity apl laps)[i]?).join).isSome
      = (((laps[i]?).map (calculate_equity_change apl)).join).isSome := by
  refine ⟨?_, ?_, ?_⟩
  · rcases l with ⟨pit, sc, gap, rd⟩
    rw [calculate_equity_change]
    cases sc <;> cases pit <;> cases rd <;> simp
  · rw [executionEquity, pandasCumsum, pandasCumsumFrom_length]
    simp
  · rw [executionEquity, pandasCumsum, pandasCumsumFrom_join_isSome]
    rw [List.getElem?_map]

/-- Witness for the amended C8 at a two-lap competitor whose first lap is
a pit lap with an absent delta: the series still has one entry per lap. -/
theorem equity_change_definedness_witness :
    (executionEquity 20 [⟨true, false, 0, none⟩, ⟨false, false, 0, some 2⟩]).length
      = ([⟨true, false, 0, none⟩, ⟨false, false, 0, some 2⟩] : List Lap).length :=
  (equity_change_definedness 20 ⟨true, false, 0, none⟩
    [⟨true, false, 0, none⟩, ⟨false, false, 0, some 2⟩] 0).2.1

/-! ### Claim C2 -/

/-- C2: for a competitor whose per-lap equity changes are all defined, the
cumulative equity series satisfies: the entry at the first lap equals that
lap's equity change, the entry at each later lap equals the previous entry
plus that lap's equity change, and the entry at the final lap equals the
sum of all the per-lap equity changes. -/
theorem cumulative_equity_recurrence (apl : ℚ) (laps : List Lap)
    (hdef : ∀ l ∈ laps, (calculate_equity_change apl l).isSome = true)
    (hne : laps ≠ []) :
    (executionEquity apl laps)[0]? =
      (laps[0]?).map (calculate_equity_change apl) ∧
    (∀ i, i + 1 < laps.length →
      ∃ a c, (executionEquity apl laps)[i]? = some (some a) ∧
        (laps[i + 1]?).map (calculate_equity_change apl) = some (some c) ∧
        (executionEquity apl laps)[i + 1]? = some (some (a + c))) ∧
    (executionEquity apl laps).getLast? =
      some (some ((laps.map
        (fun l => (calculate_equity_change apl l).getD 0)).sum)) := by
  have hmap := map_getD_some apl laps hdef
  have hee : executionEquity apl laps =
      (runningSums 0
        (laps.map (fun l => (calculate_equity_change apl l).getD 0))).map some := by
    rw [executionEquity, hmap, pandasCumsum, pandasCumsumFrom_map_some]
  refine ⟨executionEquity_head apl laps, ?_, ?_⟩
  · intro i hi
    have hlen : (laps.map
        (fun l => (calculate_equity_change apl l).getD 0)).length = laps.length := by
      simp
    obtain ⟨v, c, h1, h2, h3⟩ :=
      runningSums_recurrence _ 0 i (by rw [hlen]; exact hi)
    refine ⟨v, c, ?_, ?_, ?_⟩
    · rw [hee, List.getElem?_map, h1]; rfl
    · have hcol := congrArg (fun t => t[i + 1]?) hmap
      simp only [List.getElem?_map] at hcol
      rw [List.getElem?_map] at h2
      rw [hcol, h2]
      rfl
    · rw [hee, List.getElem?_map, h3]; rfl
  · have hcs_ne : (laps.map
        (fun l => (calculate_equity_change apl l).getD 0)) ≠ [] := by
      simpa using hne
    rw [hee, List.getLast?_map, runningSums_getLast _ 0 hcs_ne]
    simp

/-- Witness for C2: a three-lap competitor (one clean lap, one non-caution
pit lap, one caution lap, all with defined deltas); the final cumulative
equity equals the sum of the three equity changes. -/
theorem cumulative_equity_recurrence_witness :
    (executionEquity 20
      [⟨false, false, 0, some 2⟩, ⟨true, false, 0, some 25⟩,
       ⟨false, true, 0, some 9⟩]).getLast? =
    some (some (([⟨false, false, 0, some 2⟩, ⟨true, false, 0, some 25⟩,
       ⟨false, true, 0, some 9⟩] : List Lap).map
        (fun l => (calculate_equity_change 20 l).getD 0)).sum) :=
  (cumulative_equity_recurrence 20 _
    (by intro l hl; fin_cases hl <;> simp [calculate_equity_change])
    (by simp)).2.2

/-! ### Claim C1 -/

theorem ratesOfType_nil_of_velocities_nil (t : String) {st : ScanState}
    (h : st.recovery_velocities = []) : ratesOfType t st = [] := by
  simp [ratesOfType, h]

/-- C1 counterexample: a competitor with one finalized "Major Incident"
episode and zero finalized "Traffic" episodes nevertheless gets a
non-`NaN` Traffic Resilience — the value is back-filled with the mean of
all recovery velocities (here 3/2) by lines 109-116 of
drawdown_metrics.py, so the Traffic category is not "independently NaN
when that competitor had zero finalized drawdown episodes of that
category". -/
theorem traffic_resilience_backfilled_counterexample :
    ratesOfType "Traffic" (detectEpisodes exampleRowsMajor) = [] ∧
    trafficResilience (detectEpisodes exampleRowsMajor) = some (3/2) := by
  constructor <;>
    norm_num +decide [exampleRowsMajor, detectEpisodes, drawdowns, cummax,
      cummaxFrom, scanStep, initScanState, DRAWDOWN_ENTRY_THRESHOLD,
      RECOVERY_COMPLETE_THRESHOLD, MIN_RECOVERY_DURATION, trafficResilience,
      ratesOfType, meanQ]

/-- C1 as amended: the "Major Incident" and "Operational" resilience
entries are each independently `NaN` exactly when the competitor had zero
finalized episodes of that category, and otherwise equal the mean recovery
velocity over the episodes of that category; the "Traffic" entry, however,
equals the mean over the traffic episodes when at least one exists, is
back-filled with the mean over all finalized episodes when there are no
traffic episodes but at least one episode of another category, and is
`NaN` only when the competitor had no finalized episodes at all. -/
theorem per_category_resilience_characterization (rows : List EquityRow) :
    (majorIncidentResilience (detectEpisodes rows) = none ↔
      ratesOfType "Major Incident" (detectEpisodes rows) = []) ∧
    (ratesOfType "Major Incident" (detectEpisodes rows) ≠ [] →
      majorIncidentResilience (detectEpisodes rows) =
        some (meanQ (ratesOfType "Major Incident" (detectEpisodes rows)))) ∧
    (operationalResilience (detectEpisodes rows) = none ↔
      ratesOfType "Operational" (detectEpisodes rows) = []) ∧
    (ratesOfType "Operational" (detectEpisodes rows) ≠ [] →
      operationalResilience (detectEpisodes rows) =
        some (meanQ (ratesOfType "Operational" (detectEpisodes rows)))) ∧
    (ratesOfType "Traffic" (detectEpisodes rows) ≠ [] →
      trafficResilience (detectEpisodes rows) =
        some (meanQ (ratesOfType "Traffic" (detectEpisodes rows)))) ∧
    (ratesOfType "Traffic" (detectEpisodes rows) = [] →
      (detectEpisodes rows).recovery_velocities ≠ [] →
      trafficResilience (detectEpisodes rows) =
        some (meanQ (detectEpisodes rows).recovery_velocities)) ∧
    (trafficResilience (detectEpisodes rows) = none ↔
      (detectEpisodes rows).recovery_velocities = []) := by
  set st := detectEpisodes rows with hst
  refine ⟨?_, ?_, ?_, ?_, ?_, ?_, ?_⟩
  · by_cases h : ratesOfType "Major Incident" st = [] <;>
      simp [majorIncidentResilience, typeRecoveryGeneric, h]
  · intro h
    simp [majorIncidentResilience, typeRecoveryGeneric, h]
  · by_cases h : ratesOfType "Operational" st = [] <;>
      simp [operationalResilience, typeRecoveryGeneric, h]
  · intro h
    simp [operationalResilience, typeRecoveryGeneric, h]
  · intro h
    simp [trafficResilience, h]
  · intro h hv
    simp [trafficResilience, h, hv]
  · by_cases h : ratesOfType "Traffic" st = []
    · by_cases hv : st.recovery_velocities = [] <;>
        simp [trafficResilience, h, hv]
    · have hv : st.recovery_velocities ≠ [] := by
        intro hv
        exact h (ratesOfType_nil_of_velocities_nil _ hv)
      simp [trafficResilience, h, hv]

/-- Witness for C1 at a competitor with one Traffic episode: the Traffic
Resilience equals the mean over the traffic episodes. -/
theorem per_category_resilience_characterization_witness :
    trafficResilience (detectEpisodes exampleRowsTraffic) =
      some (meanQ (ratesOfType "Traffic" (detectEpisodes exampleRowsTraffic))) :=
  (per_category_resilience_characterization exampleRowsTraffic).2.2.2.2.1
    (by
      norm_num +decide [exampleRowsTraffic, detectEpisodes, drawdowns, cummax,
        cummaxFrom, scanStep, initScanState, DRAWDOWN_ENTRY_THRESHOLD,
        RECOVERY_COMPLETE_THRESHOLD, MIN_RECOVERY_DURATION, ratesOfType])

/-! ### Claim C6 -/

theorem insertAsc_length (x : ℚ) (l : List ℚ) :
    (insertAsc x l).length = l.length + 1 := by
  induction l with
  | nil => rfl
  | cons y ys ih => rw [insertAsc]; split <;> simp [ih]

theorem sortAsc_length (l : List ℚ) : (sortAsc l).length = l.length := by
  induction l with
  | nil => rfl
  | cons x xs ih =>
    rw [sortAsc, List.foldr_cons, insertAsc_length, ← sortAsc, ih]
    simp

theorem intFloor_nat_sub_half (t : ℕ) (ht : 1 ≤ t) :
    ⌊(t : ℚ) - 1/2⌋ = (t : ℤ) - 1 := by
  have h1 : ((t : ℤ) - 1 : ℚ) ≤ (t : ℚ) - 1/2 := by push_cast; linarith
  have h2 : ((t : ℚ) - 1/2) < ((t : ℤ) - 1 : ℚ) + 1 := by push_cast; linarith
  exact Int.floor_eq_iff.mpr ⟨by exact_mod_cast h1, by exact_mod_cast h2⟩

theorem getD_default_irrel (l : List ℚ) (n : ℕ) (h : n < l.length)
    (d1 d2 : ℚ) : l.getD n d1 = l.getD n d2 := by
  rw [List.getD_eq_getElem?_getD, List.getD_eq_getElem?_getD,
    List.getElem?_eq_getElem h]
  rfl

theorem np_percentile_50_eq_median (xs : List ℚ) (hne : xs ≠ []) :
    np_percentile 50 xs = median_spec xs := by
  have hlen0 : 0 < xs.length := List.length_pos.mpr hne
  have hslen : (sortAsc xs).length = xs.length := sortAsc_length xs
  rw [np_percentile, median_spec]
  rw [hslen]
  rcases Nat.even_or_odd xs.length with he | ho
  · obtain ⟨t, ht⟩ := he
    have ht1 : 1 ≤ t := by omega
    have hpos : 50 * ((xs.length : ℚ) - 1) / 100 = (t : ℚ) - 1/2 := by
      rw [ht]; push_cast; ring
    have hmod : ¬ xs.length % 2 = 1 := by omega
    have hdiv : xs.length / 2 = t := by omega
    simp only [interpolateAt, hpos, intFloor_nat_sub_half t ht1]
    have htn : ((t : ℤ) - 1).toNat = t - 1 := by omega
    rw [htn, if_neg hmod, hdiv]
    have hcast : ((t - 1 : ℕ) : ℚ) = (t : ℚ) - 1 := by
      push_cast [ht1]; ring
    have hidx : t - 1 + 1 = t := by omega
    have hlt : t < (sortAsc xs).length := by omega
    rw [hidx, hcast,
      getD_default_irrel (sortAsc xs) t hlt _ 0]
    ring
  · obtain ⟨t, ht⟩ := ho
    have hpos : 50 * ((xs.length : ℚ) - 1) / 100 = (t : ℚ) := by
      rw [ht]; push_cast; ring
    have hmod : xs.length % 2 = 1 := by omega
    have hdiv : xs.length / 2 = t := by omega
    simp only [interpolateAt, hpos, Int.floor_natCast, Int.toNat_natCast]
    rw [if_pos hmod, hdiv]
    ring

/-- C6: the dynamic traffic-threshold calibration returns the 50th
percentile (i.e. the median) of the gap-to-ahead values over all non-pit,
non-caution laps with gap strictly between 0.1s and 9.0s, clamped into
[0.8, 3.0], whenever there are at least 50 such valid samples, and the
fixed default 1.3s whenever there are fewer than 50. -/
theorem traffic_threshold_calibration (laps : List Lap) :
    estimate_traffic_threshold_dynamically laps =
      if (validGaps laps).length < 50 then 13/10
      else min 3 (max (4/5) (median_spec (validGaps laps))) := by
  rw [estimate_traffic_threshold_dynamically]
  split
  · rfl
  · rename_i h
    have hne : validGaps laps ≠ [] := by
      intro hnil
      rw [hnil] at h
      exact h (by norm_num)
    rw [np_percentile_50_eq_median _ hne]

/-- Witness for C6 at the empty lap table (zero valid samples, so the
fallback default 1.3s is returned). -/
theorem traffic_threshold_calibration_witness :
    estimate_traffic_threshold_dynamically [] = 13/10 :=
  (traffic_threshold_calibration []).trans (by simp [validGaps])

/-! ### Claim C7 -/

theorem sampleVarQ_nonneg (xs : List ℚ) (h2 : 2 ≤ xs.length) :
    0 ≤ sampleVarQ xs := by
  rw [sampleVarQ]
  apply div_nonneg
  · apply List.sum_nonneg
    intro x hx
    rw [List.mem_map] at hx
    obtain ⟨y, _, rfl⟩ := hx
    positivity
  · have : (2 : ℚ) ≤ (xs.length : ℚ) := by exact_mod_cast h2
    linarith

/-- C7: for a segment group with at least 3 delta samples, the
Sortino-like ratio as computed by the code equals the spec's description:
it is built from the downside subset (deltas strictly greater than the
segment's own mean); 0 if that subset is empty; 0 if its standard
deviation is not greater than 1e-6 (including the undefined sample
standard deviation of a single-element subset, since the float comparison
`NaN > 1e-6` is false); otherwise the negated mean delta divided by the
downside standard deviation. -/
theorem sortino_downside_characterization (deltas : List ℚ)
    (h3 : 3 ≤ deltas.length) :
    sortinoStint deltas = sortinoSpec deltas := by
  simp only [sortinoStint, sortinoSpec]
  cases hd : deltas.filter (fun d => meanQ deltas < d) with
  | nil => simp [sampleStdOpt]
  | cons x rest =>
    cases rest with
    | nil => simp [sampleStdOpt]
    | cons y rest' =>
      have hiff : ((1/1000000 : ℝ) <
            Real.sqrt ((sampleVarQ (x :: y :: rest') : ℚ) : ℝ))
          ↔ ((1/1000000 : ℚ) ^ 2 < sampleVarQ (x :: y :: rest')) := by
        rw [Real.lt_sqrt (by norm_num),
          show ((1/1000000 : ℝ)) ^ 2 = (((1/1000000 : ℚ) ^ 2 : ℚ) : ℝ) by
            push_cast; ring]
        exact Rat.cast_lt
      have hstd : sampleStdOpt (x :: y :: rest')
          = some (Real.sqrt ((sampleVarQ (x :: y :: rest') : ℚ) : ℝ)) := by
        rw [sampleStdOpt, if_neg (by simp)]
      simp only [hstd, List.isEmpty_cons, List.length_cons]
      rw [if_neg (by simp), if_neg (by omega)]
      by_cases hc : (1/1000000 : ℚ) ^ 2 < sampleVarQ (x :: y :: rest')
      · rw [if_pos hc, if_pos (hiff.mpr hc)]
      · rw [if_neg hc, if_neg (fun hcon => hc (hiff.mp hcon))]

/-- Witness for C7 at the concrete three-sample segment
`[0, 1, -1]` (mean 0, downside subset `[1]`, whose one-sample standard
deviation is undefined, so the ratio is 0 on both sides). -/
theorem sortino_downside_characterization_witness :
    3 ≤ ([0, 1, -1] : List ℚ).length ∧
    sortinoStint [0, 1, -1] = sortinoSpec [0, 1, -1] :=
  ⟨by norm_num, sortino_downside_characterization [0, 1, -1] (by norm_num)⟩

/-! ### Claim C9 -/

theorem idxmaxAux_lt (xs : List ℚ) :
    ∀ (i bi : ℕ) (bv : ℚ), idxmaxAux xs i bi bv < max (bi + 1) (i + xs.length) := by
  induction xs with
  | nil =>
    intro i bi bv
    simp only [idxmaxAux, List.length_nil]
    omega
  | cons x xs ih =>
    intro i bi bv
    rw [idxmaxAux]
    simp only [List.length_cons]
    split
    · have h := ih (i + 1) i x
      omega
    · have h := ih (i + 1) bi bv
      omega

theorem idxmax_lt_length (l : List ℚ) (h : l ≠ []) : idxmax l < l.length := by
  cases l with
  | nil => exact absurd rfl h
  | cons x xs =>
    have h1 := idxmaxAux_lt xs 1 0 x
    rw [idxmax]
    simp only [List.length_cons]
    omega

theorem setLabelEK_map_fst (l : List (DriverRow × String)) :
    ∀ i, (setLabelEK l i).map (fun p => p.1) = l.map (fun p => p.1) := by
  induction l with
  | nil => intro i; rfl
  | cons p ps ih =>
    intro i
    cases i with
    | zero => simp [setLabelEK]
    | succ j => simp [setLabelEK, ih j]

theorem setLabelEK_any (l : List (DriverRow × String)) :
    ∀ i, i < l.length →
      (setLabelEK l i).any (fun p => p.2 = "Entropy King") = true := by
  induction l with
  | nil => intro i hi; simp at hi
  | cons p ps ih =>
    intro i hi
    cases i with
    | zero => simp [setLabelEK]
    | succ j =>
      rw [setLabelEK]
      simp only [List.any_cons]
      rw [ih j (by simpa using hi)]
      simp

/-- C9: for every non-empty input cohort, the profiling output keeps the
cohort rows unchanged (only labels are attached) and at least one
competitor carries the "Entropy King" label — when no competitor receives
it from the threshold rules, the post-hoc correction relabels the
competitor with the highest restart delta. -/
theorem entropy_king_guarantee (cohort : List DriverRow) (hne : cohort ≠ []) :
    (profile_drivers cohort).map (fun p => p.1) = cohort ∧
    (profile_drivers cohort).any (fun p => p.2 = "Entropy King") = true := by
  simp only [profile_drivers]
  split
  · rename_i hany
    constructor
    · simp [List.map_map, Function.comp_def]
    · exact hany
  · constructor
    · rw [setLabelEK_map_fst]
      simp [List.map_map, Function.comp_def]
    · have hmne : cohort.map (fun r => r.restartDelta) ≠ [] := by
        intro hmap
        apply hne
        cases cohort with
        | nil => rfl
        | cons c cs => simp at hmap
      have hidx := idxmax_lt_length _ hmne
      rw [List.length_map] at hidx
      apply setLabelEK_any
      rw [List.length_map]
      exact hidx

/-- Witness for C9 at a one-competitor cohort whose natural label is not
"Entropy King" (restart delta -1 fails rule 1), so the post-hoc
correction fires. -/
theorem entropy_king_guarantee_witness :
    (profile_drivers [⟨-10, 1, -1⟩]).any
      (fun p => p.2 = "Entropy King") = true :=
  (entropy_king_guarantee [⟨-10, 1, -1⟩] (by simp)).2

/-! ### Claim C10 -/

/-- C10: a competitor none of whose stints reaches 3 delta samples is
omitted from the ratio engine's result table entirely — no row is emitted
for that competitor. -/
theorem thin_sample_driver_excluded (drivers : List ℕ) (laps : List LapR)
    (d : ℕ)
    (hthin : ∀ st : ℕ,
      ((laps.filter (fun l => l.driver = d)).filter
        (fun l => l.stint = st)).length < 3) :
    ∀ row ∈ sortinoRows drivers laps, row.driver ≠ d := by
  intro row hrow hd
  rw [sortinoRows, List.mem_filterMap] at hrow
  obtain ⟨dnum, _, hsome⟩ := hrow
  dsimp only at hsome
  have hdriver : row.driver = dnum := by
    split at hsome
    · exact absurd hsome (by simp)
    · split at hsome
      · exact absurd hsome (by simp)
      · have heq := Option.some_inj.mp hsome
        rw [← heq]
  have hdnum : dnum = d := by rw [← hdriver, hd]
  subst hdnum
  have hstats_nil :
      (uniqueFirst ((laps.filter (fun l => l.driver = dnum)).map
        (fun l => l.stint))).filterMap
        (fun st =>
          if ((laps.filter (fun l => l.driver = dnum)).filter
              (fun l => l.stint = st)).length < 3 then none
          else
            some (sortinoStint (((laps.filter (fun l => l.driver = dnum)).filter
                (fun l => l.stint = st)).map (fun l => l.delta)),
              ((laps.filter (fun l => l.driver = dnum)).filter
                (fun l => l.stint = st)).length,
              meanQ (((laps.filter (fun l => l.driver = dnum)).filter
                (fun l => l.stint = st)).map (fun l => l.delta)))) = [] := by
    rw [List.filterMap_eq_nil_iff]
    intro st _
    rw [if_pos (hthin st)]
  rw [hstats_nil] at hsome
  split at hsome <;> simp at hsome

/-- Witness for C10: with driver 1 owning only a 2-lap stint, the result
table contains no row for driver 1. -/
theorem thin_sample_driver_excluded_witness :
    ¬ (1 ∈ (sortinoRows [1, 2] exampleLapsThin).map (fun r => r.driver)) := by
  intro hmem
  rw [List.mem_map] at hmem
  obtain ⟨row, hrow, hdrv⟩ := hmem
  refine thin_sample_driver_excluded [1, 2] exampleLapsThin 1 ?_ row hrow hdrv
  intro st
  have hle := List.length_filter_le (fun l => decide (l.stint = st))
    (exampleLapsThin.filter (fun l => l.driver = 1))
  have houter : (exampleLapsThin.filter (fun l => l.driver = 1)).length = 2 := by
    simp +decide [exampleLapsThin]
  omega

end QuantF1
